import Mathlib

/-!
Verification of the taskrun log reader (pkg/cmd/taskrun/log_reader.go).

The Go file orchestrates log streaming for a multi-step task run:
it resolves the list of steps from the execution pod (`filterSteps`,
`getSteps`, `getInitSteps`), waits for the pod name to appear in the
run status (`waitUntilPodNameAvailable`), checks preconditions in the
non-follow path (`readAvailableLogs`), and multiplexes each step's log
and error channels into two output channels (`readStepsLogs`).

The embedding below models the pure data flow of those functions.
Channels are modelled as the finite sequences of values they deliver;
the nondeterministic `select` between a step's two live channels is
resolved by an explicit schedule (a list of booleans, `true` = take
from the log channel); Go's `for ... != nil` fan-in loop becomes a
well-founded recursion on the remaining channel contents.
-/

namespace LogReader

/-- Mirrors corev1.ContainerState as far as the reader inspects it:
only the Waiting field is ever read (`step.hasStarted`).  `some r`
means the container is in the Waiting state (with reason `r`),
`none` means the Waiting pointer is nil. -/
structure ContainerState where
  waiting : Option String
  deriving DecidableEq, Repr

/-- The zero value of corev1.ContainerState: all state pointers nil.
This is what a Go map lookup returns for a missing key. -/
def zeroContainerState : ContainerState := { waiting := none }

/-- A container declared in the pod spec (only the name is used). -/
structure Container where
  name : String
  deriving DecidableEq, Repr

/-- One entry of pod.Status.ContainerStatuses / InitContainerStatuses. -/
structure ContainerStatus where
  name : String
  state : ContainerState
  deriving DecidableEq, Repr

/-- The parts of corev1.Pod the reader touches: Spec.Containers,
Spec.InitContainers, Status.ContainerStatuses, Status.InitContainerStatuses. -/
structure Pod where
  containers : List Container
  initContainers : List Container
  containerStatuses : List ContainerStatus
  initContainerStatuses : List ContainerStatus
  deriving DecidableEq, Repr

/-- The `step` struct of log_reader.go. -/
structure Step where
  name : String
  container : String
  state : ContainerState
  deriving DecidableEq, Repr

/-- `func (s *step) hasStarted() bool { return s.state.Waiting == nil }` -/
def Step.hasStarted (s : Step) : Bool := s.state.waiting = none

/-- The fixed container-name marker stripped to obtain a step's display
name (`strings.TrimPrefix(c.Name, "step-")`). -/
def stepMarker : String := "step-"

/-- Go's strings.TrimPrefix: drop the marker when present, else return
the string unchanged (expressed on the character sequence of the
string). -/
def trimStepMarker (s : String) : String :=
  if stepMarker.data.isPrefixOf s.data then { data := s.data.drop stepMarker.data.length }
  else s

/-- The name-to-state map built by `getSteps`/`getInitSteps` from the
status list (`status[cs.Name] = cs.State` in a range loop: for a
duplicated name the last entry wins, and a missing name yields the zero
ContainerState). -/
def lookupState (statuses : List ContainerStatus) (name : String) : ContainerState :=
  match statuses.reverse.find? (fun cs => cs.name == name) with
  | some cs => cs.state
  | none => zeroContainerState

/-- `getSteps`: one step per pod.Spec.Containers entry, in declaration
order, name-stripped, annotated with its last observed state. -/
def getSteps (pod : Pod) : List Step :=
  pod.containers.map fun c =>
    { name := trimStepMarker c.name
      container := c.name
      state := lookupState pod.containerStatuses c.name }

/-- `getInitSteps`: same derivation over pod.Spec.InitContainers and
pod.Status.InitContainerStatuses. -/
def getInitSteps (pod : Pod) : List Step :=
  pod.initContainers.map fun c =>
    { name := trimStepMarker c.name
      container := c.name
      state := lookupState pod.initContainerStatuses c.name }

/-- `filterSteps(pod, allSteps, stepsGiven)`: prepend the init steps
when allSteps is set; with an empty stepsGiven return all non-init
steps; otherwise keep only the non-init steps whose name is in
stepsGiven (the Go code builds a map[string]bool from stepsGiven and
tests membership), preserving pod order. -/
def filterSteps (pod : Pod) (allSteps : Bool) (stepsGiven : List String) : List Step :=
  let stepsInPod := getSteps pod
  let steps := if allSteps then getInitSteps pod else []
  if stepsGiven.isEmpty then
    steps ++ stepsInPod
  else
    steps ++ stepsInPod.filter (fun sp => stepsGiven.contains sp.name)

/-- The log.Log record sent on the log channel: task name, step name,
log line. -/
structure Log where
  task : String
  step : String
  log : String
  deriving DecidableEq, Repr

/-- One value sent on one of the two output channels of
`readStepsLogs`: a log record on logC or an error (its message) on
errC. -/
inductive Record where
  | logR : Log → Record
  | errR : String → Record
  deriving DecidableEq, Repr

/-- The sentinel line emitted when a step's log channel closes. -/
def eofLog : String := "EOFLOG"

/-- Remaining contents of a channel: `none` is a nil (deselected)
channel, `some l` an open channel that will deliver the items of `l`
and then close. -/
def chanLen : Option (List String) → Nat
  | none => 0
  | some l => l.length + 1

/-- The per-step fan-in loop of `readStepsLogs`
(`for podC != nil || perrC != nil { select ... }`):
a received log line is forwarded tagged with task and step name; the
log channel closing emits one final sentinel record and sets podC to
nil; a received error is wrapped with the step name; the error channel
closing just sets perrC to nil.  When both channels are live the
schedule decides which select case fires (true = log channel, default
true when exhausted); when only one is live, only that case can fire. -/
def fanIn (task stepName : String) :
    Option (List String) → Option (List String) → List Bool → List Record
  | none, none, _ => []
  | some logs, none, sched =>
    match logs with
    | [] => Record.logR { task := task, step := stepName, log := eofLog }
        :: fanIn task stepName none none sched
    | l :: ls => Record.logR { task := task, step := stepName, log := l }
        :: fanIn task stepName (some ls) none sched
  | none, some errs, sched =>
    match errs with
    | [] => fanIn task stepName none none sched
    | e :: es => Record.errR ("failed to get logs for " ++ stepName ++ ": " ++ e)
        :: fanIn task stepName none (some es) sched
  | some logs, some errs, sched =>
    if sched.headD true then
      match logs with
      | [] => Record.logR { task := task, step := stepName, log := eofLog }
          :: fanIn task stepName none (some errs) sched.tail
      | l :: ls => Record.logR { task := task, step := stepName, log := l }
          :: fanIn task stepName (some ls) (some errs) sched.tail
    else
      match errs with
      | [] => fanIn task stepName (some logs) none sched.tail
      | e :: es => Record.errR ("failed to get logs for " ++ stepName ++ ": " ++ e)
          :: fanIn task stepName (some logs) (some es) sched.tail
  termination_by p q _ => chanLen p + chanLen q
  decreasing_by all_goals (simp [chanLen]; try omega)

/-- The observable behaviour of one step's stream adapter, as consumed
by the multiplexing loop: the step itself, the outcome of
`container.LogReader(follow).Read()` (an open error, or the contents
the two channels will deliver), the schedule resolving the select
between the two live channels, and the result of `container.Status()`
(`some msg` = the step's process ended in failure). -/
structure StepInput where
  st : Step
  openRes : Except String (List String × List String)
  sched : List Bool
  status : Option String
  deriving Repr

/-- The multiplexing loop body of `readStepsLogs`, as the sequence of
values sent on the two output channels (in send order) before they are
closed.  Per step, in resolved order: skip a not-yet-started step when
not following; an open error emits one error record and continues;
otherwise fan in the two channels until both close, then query the
terminal status — a status error is emitted as a final error record
and aborts the whole loop. -/
def readStepsLogs (task : String) (follow : Bool) : List StepInput → List Record
  | [] => []
  | inp :: rest =>
    if !follow && !inp.st.hasStarted then
      readStepsLogs task follow rest
    else
      match inp.openRes with
      | Except.error e =>
        Record.errR ("error in getting logs for step " ++ inp.st.name ++ ": " ++ e)
          :: readStepsLogs task follow rest
      | Except.ok (logs, errs) =>
        let recs := fanIn task inp.st.name (some logs) (some errs) inp.sched
        match inp.status with
        | some e => recs ++ [Record.errR e]
        | none => recs ++ readStepsLogs task follow rest

/-- Whether the loop skips this step (`!follow && !step.hasStarted()`). -/
def stepSkipped (follow : Bool) (inp : StepInput) : Bool :=
  !follow && !inp.st.hasStarted

/-- The records a single processed (non-skipped) step contributes. -/
def stepRecords (task : String) (inp : StepInput) : List Record :=
  match inp.openRes with
  | Except.error e =>
    [Record.errR ("error in getting logs for step " ++ inp.st.name ++ ": " ++ e)]
  | Except.ok (logs, errs) =>
    fanIn task inp.st.name (some logs) (some errs) inp.sched ++
      (match inp.status with
       | some e => [Record.errR e]
       | none => [])

/-- Whether a processed step aborts the loop: its channels were opened
and its terminal status reported failure. -/
def stepAborts (inp : StepInput) : Bool :=
  inp.openRes.isOk && inp.status.isSome

/-- The contribution of one step to the output (nothing if skipped). -/
def stepOut (task : String) (follow : Bool) (inp : StepInput) : List Record :=
  if stepSkipped follow inp then [] else stepRecords task inp

/-- A step after which the loop moves on to the next step: it was
skipped, or it was processed without a terminal-status abort. -/
def stepCompletes (follow : Bool) (inp : StepInput) : Bool :=
  stepSkipped follow inp || !stepAborts inp

/-- The log lines (Log field) of the log-channel records of `rs` that
are tagged with step `stepName`, in order; error-channel records are
not log records. -/
def logsOf (stepName : String) (rs : List Record) : List String :=
  rs.filterMap fun r =>
    match r with
    | Record.logR l => if l.step = stepName then some l.log else none
    | Record.errR _ => none

/-- knative duck v1beta1 condition status, as compared by the reader
(`corev1.ConditionFalse`). -/
inductive ConditionStatus where
  | condTrue
  | condFalse
  | condUnknown
  deriving DecidableEq, Repr

/-- One status condition of a task run: its status and message. -/
structure Condition where
  status : ConditionStatus
  message : String
  deriving DecidableEq, Repr

/-- The parts of v1alpha1.TaskRun the reader inspects: the object name,
the start time (for HasStarted), the status conditions and the pod
name. -/
structure TaskRun where
  name : String
  startTime : Option Nat
  conditions : List Condition
  podName : String
  deriving DecidableEq, Repr

/-- Modelled from the dependency (tektoncd/pipeline)'s
`TaskRun.HasStarted`, which the spec paraphrases as the run reporting
it "has started": the start time is set in the status. -/
def TaskRun.hasStarted (tr : TaskRun) : Bool := tr.startTime.isSome

/-- `hasTaskRunFailed(trConditions, taskName)`: a non-empty condition
list whose first condition's status is False yields the failure error,
otherwise nil. -/
def hasTaskRunFailed (trConditions : List Condition) (taskName : String) : Option String :=
  match trConditions with
  | [] => none
  | c :: _ =>
    if c.status = ConditionStatus.condFalse then
      some ("task " ++ taskName ++ " has failed: " ++ c.message)
    else
      none

/-- Outcome of the precondition checks of `readAvailableLogs` before
any streaming starts.  `runFailedErr` also records whether the error
was duplicated to the optional side-channel writer (lr.Stream). -/
inductive ReadAvailableOutcome where
  | notStartedErr : String → ReadAvailableOutcome
  | runFailedErr : String → Bool → ReadAvailableOutcome
  | podNotAvailableErr : String → ReadAvailableOutcome
  | proceed
  deriving DecidableEq, Repr

/-- The synchronous precondition sequence of `readAvailableLogs`:
(1) the run must have started; (2) then its first condition is checked
for failure, and a failure is written to the side-channel writer when
one is attached and returned; (3) then the pod name must be non-empty.
`hasSideStream` models `lr.Stream != nil`. -/
def readAvailableLogsCheck (task : String) (hasSideStream : Bool) (tr : TaskRun) :
    ReadAvailableOutcome :=
  if !tr.hasStarted then
    ReadAvailableOutcome.notStartedErr ("task " ++ task ++ " has not started yet")
  else
    match hasTaskRunFailed tr.conditions task with
    | some e => ReadAvailableOutcome.runFailedErr e hasSideStream
    | none =>
      if tr.podName == "" then
        ReadAvailableOutcome.podNotAvailableErr
          ("pod for taskrun " ++ tr.name ++ " not available yet")
      else
        ReadAvailableOutcome.proceed

/-- One resolution of the select in `waitUntilPodNameAvailable`'s loop:
either a watch event was received before the timer fired (the
`time.After` timer is created afresh on each loop iteration, so
receiving an event re-arms it), or the timer fired first. -/
inductive WaitHappening where
  | event : TaskRun → WaitHappening
  | timerFires
  deriving DecidableEq, Repr

/-- How `waitUntilPodNameAvailable` returns: the run once its pod name
is non-empty, the startup-failure error, or the timeout error. -/
inductive WaitOutcome where
  | success : TaskRun → WaitOutcome
  | failed : String → WaitOutcome
  | timedOut : String → WaitOutcome
  deriving DecidableEq, Repr

/-- The watch loop of `waitUntilPodNameAvailable` over a finite prefix
of select resolutions: an event whose run has a non-empty pod name
stops the watch and returns it; an event with an empty pod name loops
(the Go code only toggles a dead `first` flag); the timer firing stops
the watch and re-checks the conditions of the run fetched before the
watch was opened (the `run` shadowed inside the event case does not
reach the timeout branch) — a first-condition failure is returned as
the failure error, otherwise the timeout error.  `none` means the loop
is still running after consuming the whole prefix. -/
def waitLoop (task : String) (initialRun : TaskRun) :
    List WaitHappening → Option WaitOutcome
  | [] => none
  | WaitHappening.event r :: rest =>
    if r.podName != "" then
      some (WaitOutcome.success r)
    else
      waitLoop task initialRun rest
  | WaitHappening.timerFires :: _ =>
    match hasTaskRunFailed initialRun.conditions task with
    | some e => some (WaitOutcome.failed e)
    | none =>
      some (WaitOutcome.timedOut
        ("task " ++ task ++ " create has not started yet or pod for task not yet available"))

/-- `waitUntilPodNameAvailable`, given the successfully fetched run and
the resolutions of the select loop: a run whose pod name is already set
returns immediately without opening the watch; otherwise the watch loop
runs. -/
def waitUntilPodNameAvailable (task : String) (run : TaskRun)
    (trace : List WaitHappening) : Option WaitOutcome :=
  if run.podName != "" then
    some (WaitOutcome.success run)
  else
    waitLoop task run trace

/-- A small concrete pod used to exercise the resolver: two regular
step containers (one running, one still waiting) and one init
container. -/
def samplePod : Pod :=
  { containers := [{ name := "step-build" }, { name := "step-test" }]
    initContainers := [{ name := "step-init-git" }]
    containerStatuses :=
      [{ name := "step-build", state := { waiting := none } },
       { name := "step-test", state := { waiting := some ("PodInitializing") } }]
    initContainerStatuses := [] }

/-- The step derived from samplePod's init container. -/
def sampleInitStep : Step :=
  { name := "init-git", container := "step-init-git", state := zeroContainerState }

/-- A step whose container has left the Waiting state. -/
def startedStep : Step :=
  { name := "build", container := "step-build", state := zeroContainerState }

/-- A step whose container is still Waiting. -/
def waitingStep : Step :=
  { name := "test", container := "step-test", state := { waiting := some ("PodInitializing") } }

/-- A terminal-status error message used in concrete instances. -/
def sampleStatusErr : String := "container step-build has failed"

/-- A processed step whose terminal status reports failure. -/
def sampleAbortInput : StepInput :=
  { st := startedStep
    openRes := Except.ok (["ok"], [])
    sched := []
    status := some sampleStatusErr }

/-- A processed step that succeeds. -/
def sampleOkInput : StepInput :=
  { st := startedStep
    openRes := Except.ok (["ok"], [])
    sched := []
    status := none }

/-- A step still waiting (skipped when not following). -/
def sampleWaitingInput : StepInput :=
  { st := waitingStep
    openRes := Except.ok ([], [])
    sched := []
    status := none }

/-- A declared container that has no matching status entry. -/
def lintContainer : Container := { name := "step-lint" }

/-- A declared init container that has no matching init status entry. -/
def initFetchContainer : Container := { name := "step-init-fetch" }

/-- A pod whose declared container and declared init container each
have no entry in the corresponding status list. -/
def sampleNoStatusPod : Pod :=
  { containers := [lintContainer]
    initContainers := [initFetchContainer]
    containerStatuses :=
      [{ name := "step-other", state := { waiting := some ("ImagePullBackOff") } }]
    initContainerStatuses :=
      [{ name := "step-other-init", state := { waiting := some ("PodPending") } }] }

/-- A task name used in concrete instances. -/
def sampleTask : String := "mytask"

/-- The failed first condition of sampleFailedRun. -/
def sampleFailedCond : Condition :=
  { status := ConditionStatus.condFalse, message := "build failed" }

/-- A run that failed before its pod was scheduled: empty pod name,
first condition False. -/
def sampleFailedRun : TaskRun :=
  { name := "tr-failed"
    startTime := some 1
    conditions := [sampleFailedCond]
    podName := "" }

/-- A watch-event run whose pod name is still empty. -/
def sampleEmptyEventRun : TaskRun :=
  { name := "tr-failed"
    startTime := some 1
    conditions := []
    podName := "" }

/-- A run that has not started yet. -/
def sampleNotStartedRun : TaskRun :=
  { name := "tr-new"
    startTime := none
    conditions := []
    podName := "" }

/-- A started, healthy run whose pod name is still empty. -/
def sampleNoPodRun : TaskRun :=
  { name := "tr-nopod"
    startTime := some 1
    conditions := [{ status := ConditionStatus.condTrue, message := "running" }]
    podName := "" }

/-- Unfolding of the multiplexing loop at one step: a skipped step
contributes nothing; a processed step contributes its records and, on a
terminal-status abort, ends the output. -/
theorem readStepsLogs_cons (task : String) (follow : Bool) (inp : StepInput) (rest : List StepInput) :
    readStepsLogs task follow (inp :: rest) =
      if stepSkipped follow inp then readStepsLogs task follow rest
      else stepRecords task inp ++
        (if stepAborts inp then [] else readStepsLogs task follow rest) := by
  cases hs : (!follow && !inp.st.hasStarted) with
  | true => simp [readStepsLogs, stepSkipped, hs]
  | false =>
    cases ho : inp.openRes with
    | error e =>
      simp [readStepsLogs, stepSkipped, hs, stepRecords, ho, stepAborts,
        Except.isOk, Except.toBool]
    | ok p =>
      obtain ⟨logs, errs⟩ := p
      cases hst : inp.status <;>
        simp [readStepsLogs, stepSkipped, hs, stepRecords, ho, hst, stepAborts,
          Except.isOk, Except.toBool]

/-- A prefix of steps that all complete (each skipped or processed
without abort) contributes exactly its per-step records, and the loop
then continues with the remaining steps. -/
theorem readStepsLogs_append (task : String) (follow : Bool) (pre rest : List StepInput)
    (h : ∀ inp ∈ pre, stepCompletes follow inp = true) :
    readStepsLogs task follow (pre ++ rest) =
      pre.flatMap (stepOut task follow) ++ readStepsLogs task follow rest := by
  induction pre with
  | nil => simp
  | cons inp pre ih =>
    have hinp := h inp (by simp)
    have hpre : ∀ x ∈ pre, stepCompletes follow x = true := fun x hx => h x (by simp [hx])
    rw [List.cons_append, readStepsLogs_cons]
    unfold stepCompletes at hinp
    cases hskip : stepSkipped follow inp with
    | true => simp [hskip, stepOut, ih hpre]
    | false =>
      rw [hskip] at hinp
      simp only [Bool.false_or] at hinp
      have habort : stepAborts inp = false := by
        cases hab : stepAborts inp
        · rfl
        · rw [hab] at hinp; simp at hinp
      simp [hskip, habort, stepOut, ih hpre]

/-- The log-channel records tagged with the step's own name that the
fan-in loop delivers are exactly the log lines of the log channel, in
order, followed by the single sentinel record — regardless of the
schedule and of the error channel's contents. -/
theorem logsOf_fanIn (task stepName : String) (podC perrC : Option (List String))
    (sched : List Bool) :
    logsOf stepName (fanIn task stepName podC perrC sched) =
      (match podC with
       | none => []
       | some logs => logs ++ [eofLog]) := by
  induction podC, perrC, sched using fanIn.induct task stepName with
  | case1 x => simp [fanIn.eq_1, logsOf]
  | case2 sched ih =>
    rw [fanIn.eq_2]
    simp only [logsOf, List.filterMap_cons] at ih ⊢
    simp [ih]
  | case3 sched l ls ih =>
    rw [fanIn.eq_3]
    simp only [logsOf, List.filterMap_cons] at ih ⊢
    simp [ih]
  | case4 sched ih =>
    rw [fanIn.eq_4]; exact ih
  | case5 sched l ls ih =>
    rw [fanIn.eq_5]
    simp only [logsOf, List.filterMap_cons] at ih ⊢
    simpa using ih
  | case6 errs sched hh ih =>
    cases errs with
    | nil =>
      rw [fanIn.eq_6, if_pos hh]
      simp only [logsOf, List.filterMap_cons] at ih ⊢
      simp [ih]
    | cons e es =>
      rw [fanIn.eq_7, if_pos hh]
      simp only [logsOf, List.filterMap_cons] at ih ⊢
      simp [ih]
  | case7 errs sched hh l ls ih =>
    cases errs with
    | nil =>
      rw [fanIn.eq_8, if_pos hh]
      simp only [logsOf, List.filterMap_cons] at ih ⊢
      simp [ih]
    | cons e es =>
      rw [fanIn.eq_9, if_pos hh]
      simp only [logsOf, List.filterMap_cons] at ih ⊢
      simp [ih]
  | case8 logs sched hh ih =>
    cases logs with
    | nil =>
      rw [fanIn.eq_6, if_neg hh]
      exact ih
    | cons l ls =>
      rw [fanIn.eq_8, if_neg hh]
      exact ih
  | case9 logs sched hh l ls ih =>
    cases logs with
    | nil =>
      rw [fanIn.eq_7, if_neg hh]
      simp only [logsOf, List.filterMap_cons] at ih ⊢
      simpa using ih
    | cons x xs =>
      rw [fanIn.eq_9, if_neg hh]
      simp only [logsOf, List.filterMap_cons] at ih ⊢
      simpa using ih

/-- The resolved steps' containers are the pod's declared containers. -/
theorem getSteps_map_container (pod : Pod) :
    (getSteps pod).map Step.container = pod.containers.map Container.name := by
  simp [getSteps, List.map_map, Function.comp]

/-- The resolved init steps' containers are the declared init
containers. -/
theorem getInitSteps_map_container (pod : Pod) :
    (getInitSteps pod).map Step.container = pod.initContainers.map Container.name := by
  simp [getInitSteps, List.map_map, Function.comp]

/-- Every resolved step's name is its container name with the step
marker stripped. -/
theorem name_eq_trim_of_mem_getSteps (pod : Pod) (s : Step) (h : s ∈ getSteps pod) :
    s.name = trimStepMarker s.container := by
  simp [getSteps] at h
  obtain ⟨c, _, rfl⟩ := h
  rfl

/-- Same for init steps. -/
theorem name_eq_trim_of_mem_getInitSteps (pod : Pod) (s : Step) (h : s ∈ getInitSteps pod) :
    s.name = trimStepMarker s.container := by
  simp [getInitSteps] at h
  obtain ⟨c, _, rfl⟩ := h
  rfl

/-- Membership testing in the wanted list (the Go map built from it)
is plain list membership. -/
theorem contains_eq_decide_mem (l : List String) (a : String) :
    l.contains a = decide (a ∈ l) := by
  by_cases h : a ∈ l <;> simp [h, List.elem_iff]

/-- Claim C3: with an empty wanted list, filterSteps returns exactly
the steps derived from the pod's declared containers in declaration
order, preceded by the init-container steps iff allSteps is set, and
every returned step's name is its container name with the fixed
marker stripped. -/
theorem filterSteps_empty_wanted (pod : Pod) (allSteps : Bool) (s : Step)
    (hs : s ∈ filterSteps pod allSteps []) :
    (filterSteps pod allSteps []).map Step.container =
      (if allSteps then pod.initContainers.map Container.name else []) ++
        pod.containers.map Container.name
    ∧ s.name = trimStepMarker s.container := by
  have hform : filterSteps pod allSteps [] =
      (if allSteps then getInitSteps pod else []) ++ getSteps pod := by
    simp [filterSteps]
  constructor
  · rw [hform]
    cases allSteps <;>
      simp [getSteps_map_container, getInitSteps_map_container]
  · rw [hform] at hs
    rcases List.mem_append.mp hs with h | h
    · cases allSteps with
      | false => simp at h
      | true =>
        simp only [if_pos] at h
        exact name_eq_trim_of_mem_getInitSteps pod s (by simpa using h)
    · exact name_eq_trim_of_mem_getSteps pod s h

/-- Witness for C3 at the sample pod and its init step. -/
theorem filterSteps_empty_wanted_witness :
    (filterSteps samplePod true []).map Step.container =
      (if true then samplePod.initContainers.map Container.name else []) ++
        samplePod.containers.map Container.name
    ∧ sampleInitStep.name = trimStepMarker sampleInitStep.container :=
  filterSteps_empty_wanted samplePod true sampleInitStep (by decide)

/-- Claim C4: with a non-empty wanted list, filterSteps returns (after
any prepended init steps) exactly the non-init steps whose names are in
the list, in pod declaration order; the result depends only on which
names are in the list, not on their order; and a name matching no step
is silently ignored. -/
theorem filterSteps_nonempty_wanted (pod : Pod) (allSteps : Bool) (wanted : List String)
    (hw : wanted ≠ []) :
    filterSteps pod allSteps wanted =
      (if allSteps then getInitSteps pod else []) ++
        (getSteps pod).filter (fun sp => decide (sp.name ∈ wanted))
    ∧ (∀ wanted₂, (∀ x, x ∈ wanted ↔ x ∈ wanted₂) →
        filterSteps pod allSteps wanted = filterSteps pod allSteps wanted₂)
    ∧ (∀ x, x ∉ (getSteps pod).map Step.name →
        filterSteps pod allSteps (x :: wanted) = filterSteps pod allSteps wanted) := by
  have hne : wanted.isEmpty = false := by
    cases wanted with
    | nil => exact absurd rfl hw
    | cons a l => rfl
  refine ⟨?_, ?_, ?_⟩
  · simp only [filterSteps, hne, Bool.false_eq_true, if_false]
    congr 1
    apply List.filter_congr
    intro sp _
    exact contains_eq_decide_mem wanted sp.name
  · intro wanted₂ hext
    have hne₂ : wanted₂.isEmpty = false := by
      cases wanted with
      | nil => exact absurd rfl hw
      | cons a l =>
        have : a ∈ wanted₂ := (hext a).mp (by simp)
        cases wanted₂ with
        | nil => simp at this
        | cons b m => rfl
    simp only [filterSteps, hne, hne₂, Bool.false_eq_true, if_false]
    congr 1
    apply List.filter_congr
    intro sp _
    rw [contains_eq_decide_mem, contains_eq_decide_mem]
    by_cases h : sp.name ∈ wanted
    · simp [h, (hext sp.name).mp h]
    · have h₂ : sp.name ∉ wanted₂ := fun hh => h ((hext sp.name).mpr hh)
      simp [h, h₂]
  · intro x hx
    simp only [filterSteps, hne, Bool.false_eq_true, if_false, List.isEmpty_cons]
    congr 1
    apply List.filter_congr
    intro sp hsp
    have hne' : sp.name ≠ x := by
      intro he
      exact hx (he ▸ List.mem_map_of_mem Step.name hsp)
    rw [contains_eq_decide_mem, contains_eq_decide_mem]
    by_cases h : sp.name ∈ wanted
    · simp [h, List.mem_cons]
    · simp [h, List.mem_cons, hne']

/-- Witness for C4 at the sample pod with a reordered wanted list
containing one bogus name. -/
theorem filterSteps_nonempty_wanted_witness :
    filterSteps samplePod false ["test", "nope"] =
      (if false then getInitSteps samplePod else []) ++
        (getSteps samplePod).filter
          (fun sp => decide (sp.name ∈ (["test", "nope"] : List String)))
    ∧ (∀ wanted₂, (∀ x, x ∈ (["test", "nope"] : List String) ↔ x ∈ wanted₂) →
        filterSteps samplePod false ["test", "nope"] = filterSteps samplePod false wanted₂)
    ∧ (∀ x, x ∉ (getSteps samplePod).map Step.name →
        filterSteps samplePod false (x :: ["test", "nope"]) =
          filterSteps samplePod false ["test", "nope"]) :=
  filterSteps_nonempty_wanted samplePod false ["test", "nope"] (by decide)

/-- Claim C5: with allSteps set and a non-empty wanted list, the init
steps are prepended unconditionally (they are not subject to the
wanted filter); in particular, on the sample pod with init step
init-git and steps build and test, wanted test resolves to
init-git then test. -/
theorem filterSteps_init_unconditional :
    (∀ (pod : Pod) (wanted : List String), wanted ≠ [] →
      filterSteps pod true wanted = getInitSteps pod ++ filterSteps pod false wanted)
    ∧ (filterSteps samplePod true ["test"]).map Step.name = ["init-git", "test"] := by
  constructor
  · intro pod wanted hw
    have hne : wanted.isEmpty = false := by
      cases wanted with
      | nil => exact absurd rfl hw
      | cons a l => rfl
    simp [filterSteps, hne]
  · decide

/-- Witness for C5 at the sample pod. -/
theorem filterSteps_init_unconditional_witness :
    filterSteps samplePod true ["test"] =
      getInitSteps samplePod ++ filterSteps samplePod false ["test"] :=
  filterSteps_init_unconditional.1 samplePod ["test"] (by decide)

/-- Claim C6: for a run whose first status condition is False and
whose pod name is empty, the waiter returns the run-failure error when
the timer fires (after any number of pod-name-less watch events), and
it can never return the timeout error. -/
theorem waiter_failed_run_not_timeout (task : String) (r : TaskRun) (c : Condition)
    (cs : List Condition) (evs : List TaskRun)
    (hcond : r.conditions = c :: cs) (hfail : c.status = ConditionStatus.condFalse)
    (hpod : r.podName = "") (hevs : ∀ e ∈ evs, e.podName = "") :
    waitUntilPodNameAvailable task r
        (evs.map WaitHappening.event ++ [WaitHappening.timerFires]) =
      some (WaitOutcome.failed ("task " ++ task ++ " has failed: " ++ c.message))
    ∧ ∀ (trace : List WaitHappening) (m : String),
        waitUntilPodNameAvailable task r trace ≠ some (WaitOutcome.timedOut m) := by
  have hfailed : hasTaskRunFailed r.conditions task =
      some ("task " ++ task ++ " has failed: " ++ c.message) := by
    rw [hcond]
    simp [hasTaskRunFailed, hfail]
  constructor
  · rw [waitUntilPodNameAvailable, if_neg (by simp [hpod])]
    induction evs with
    | nil => simp [waitLoop, hfailed]
    | cons e rest ih =>
      have he : e.podName = "" := hevs e (by simp)
      rw [List.map_cons, List.cons_append, waitLoop, if_neg (by simp [he])]
      exact ih (fun x hx => hevs x (by simp [hx]))
  · intro trace m
    rw [waitUntilPodNameAvailable, if_neg (by simp [hpod])]
    induction trace with
    | nil => simp [waitLoop]
    | cons h rest ih =>
      cases h with
      | event e =>
        rw [waitLoop]
        by_cases he : e.podName != ""
        · rw [if_pos he]; simp
        · rw [if_neg he]; exact ih
      | timerFires =>
        rw [waitLoop.eq_def]
        simp [hfailed]

/-- Witness for C6: one pod-name-less event, then the timer fires. -/
theorem waiter_failed_run_not_timeout_witness :
    waitUntilPodNameAvailable sampleTask sampleFailedRun
        (([sampleEmptyEventRun] : List TaskRun).map WaitHappening.event ++
          [WaitHappening.timerFires]) =
      some (WaitOutcome.failed
        ("task " ++ sampleTask ++ " has failed: " ++ sampleFailedCond.message))
    ∧ ∀ (trace : List WaitHappening) (m : String),
        waitUntilPodNameAvailable sampleTask sampleFailedRun trace ≠
          some (WaitOutcome.timedOut m) :=
  waiter_failed_run_not_timeout sampleTask sampleFailedRun sampleFailedCond []
    [sampleEmptyEventRun] rfl rfl rfl (by decide)

/-- Claim C10: the timeout timer is re-armed by every watch event, so
a run of in-time events that all carry an empty pod name leaves the
waiter still looping — however many there are, the timeout branch is
never taken. -/
theorem waiter_events_rearm_timer (task : String) (r : TaskRun) (evs : List TaskRun)
    (hpod : r.podName = "") (hevs : ∀ e ∈ evs, e.podName = "") :
    waitUntilPodNameAvailable task r (evs.map WaitHappening.event) = none := by
  rw [waitUntilPodNameAvailable, if_neg (by simp [hpod])]
  induction evs with
  | nil => simp [waitLoop]
  | cons e rest ih =>
    have he : e.podName = "" := hevs e (by simp)
    rw [List.map_cons, waitLoop, if_neg (by simp [he])]
    exact ih (fun x hx => hevs x (by simp [hx]))

/-- Witness for C10 at two pod-name-less events. -/
theorem waiter_events_rearm_timer_witness :
    waitUntilPodNameAvailable sampleTask sampleNoPodRun
        (([sampleEmptyEventRun, sampleEmptyEventRun] : List TaskRun).map
          WaitHappening.event) = none :=
  waiter_events_rearm_timer sampleTask sampleNoPodRun
    [sampleEmptyEventRun, sampleEmptyEventRun] rfl (by decide)

/-- Claim C7: the non-follow precondition checks fire in this order —
not-started first; then first-condition failure (returned, and written
to the side channel exactly when a writer is attached, before the
pod-name check: the pod name is unconstrained there); then empty pod
name. -/
theorem readAvailable_check_order (task : String) (side : Bool) (tr : TaskRun) :
    (tr.hasStarted = false →
      readAvailableLogsCheck task side tr =
        ReadAvailableOutcome.notStartedErr ("task " ++ task ++ " has not started yet"))
    ∧ (∀ c cs, tr.hasStarted = true → tr.conditions = c :: cs →
        c.status = ConditionStatus.condFalse →
        readAvailableLogsCheck task side tr =
          ReadAvailableOutcome.runFailedErr
            ("task " ++ task ++ " has failed: " ++ c.message) side)
    ∧ (tr.hasStarted = true → hasTaskRunFailed tr.conditions task = none →
        tr.podName = "" →
        readAvailableLogsCheck task side tr =
          ReadAvailableOutcome.podNotAvailableErr
            ("pod for taskrun " ++ tr.name ++ " not available yet")) := by
  refine ⟨?_, ?_, ?_⟩
  · intro h
    simp [readAvailableLogsCheck, h]
  · intro c cs hst hcond hfail
    have hfailed : hasTaskRunFailed tr.conditions task =
        some ("task " ++ task ++ " has failed: " ++ c.message) := by
      rw [hcond]
      simp [hasTaskRunFailed, hfail]
    simp [readAvailableLogsCheck, hst, hfailed]
  · intro hst hok hpod
    simp [readAvailableLogsCheck, hst, hok, hpod]

/-- Witness for C7 at three concrete runs, one per branch; the failed
run also has an empty pod name, showing the failure check wins. -/
theorem readAvailable_check_order_witness :
    readAvailableLogsCheck sampleTask true sampleNotStartedRun =
      ReadAvailableOutcome.notStartedErr ("task " ++ sampleTask ++ " has not started yet")
    ∧ readAvailableLogsCheck sampleTask true sampleFailedRun =
        ReadAvailableOutcome.runFailedErr
          ("task " ++ sampleTask ++ " has failed: " ++ sampleFailedCond.message) true
    ∧ readAvailableLogsCheck sampleTask true sampleNoPodRun =
        ReadAvailableOutcome.podNotAvailableErr
          ("pod for taskrun " ++ sampleNoPodRun.name ++ " not available yet") :=
  ⟨(readAvailable_check_order sampleTask true sampleNotStartedRun).1 rfl,
   (readAvailable_check_order sampleTask true sampleFailedRun).2.1 sampleFailedCond []
     rfl rfl rfl,
   (readAvailable_check_order sampleTask true sampleNoPodRun).2.2 rfl rfl rfl⟩

/-- Claim C8: in non-follow mode a step that has not started is
skipped entirely — wherever it sits in the resolved order, the output
is the same as if it were absent (in particular it contributes no log
and no error records, and its stream adapter is never consulted: the
equation holds for every openRes, sched and status attached to it). -/
theorem readStepsLogs_skips_waiting (task : String) (inp : StepInput)
    (pre post : List StepInput) (h : inp.st.hasStarted = false) :
    readStepsLogs task false (pre ++ inp :: post) =
      readStepsLogs task false (pre ++ post) := by
  induction pre with
  | nil =>
    have hskip : stepSkipped false inp = true := by
      simp [stepSkipped, h]
    simp only [List.nil_append]
    rw [readStepsLogs_cons, if_pos hskip]
  | cons x pre ih =>
    rw [List.cons_append, List.cons_append, readStepsLogs_cons, readStepsLogs_cons, ih]

/-- Witness for C8: a waiting step between two started ones. -/
theorem readStepsLogs_skips_waiting_witness :
    readStepsLogs sampleTask false ([sampleOkInput] ++ sampleWaitingInput :: [sampleAbortInput]) =
      readStepsLogs sampleTask false ([sampleOkInput] ++ [sampleAbortInput]) :=
  readStepsLogs_skips_waiting sampleTask sampleWaitingInput [sampleOkInput] [sampleAbortInput] rfl

/-- A name with no matching entry in a status list looks up to the
zero container state (the Go map zero value). -/
theorem lookupState_missing (statuses : List ContainerStatus) (name : String)
    (hmiss : ∀ cs ∈ statuses, cs.name ≠ name) :
    lookupState statuses name = zeroContainerState := by
  rw [lookupState]
  have hnone : statuses.reverse.find? (fun cs => cs.name == name) = none := by
    apply List.find?_eq_none.mpr
    intro x hx
    have := hmiss x (List.mem_reverse.mp hx)
    simp [this]
  rw [hnone]

/-- Claim C9: a declared container with no matching entry in the
corresponding status list — a regular container absent from the
container statuses, or an init container absent from the
init-container statuses — yields a derived step carrying the zero
container state, whose Waiting field is nil, so the step reports
hasStarted; the non-follow loop therefore processes rather than skips
it. -/
theorem getSteps_missing_status (pod : Pod) (c : Container) :
    zeroContainerState.waiting = none
    ∧ Step.hasStarted ⟨trimStepMarker c.name, c.name, zeroContainerState⟩ = true
    ∧ (c ∈ pod.containers → (∀ cs ∈ pod.containerStatuses, cs.name ≠ c.name) →
        lookupState pod.containerStatuses c.name = zeroContainerState
        ∧ (⟨trimStepMarker c.name, c.name, zeroContainerState⟩ : Step) ∈ getSteps pod)
    ∧ (c ∈ pod.initContainers → (∀ cs ∈ pod.initContainerStatuses, cs.name ≠ c.name) →
        lookupState pod.initContainerStatuses c.name = zeroContainerState
        ∧ (⟨trimStepMarker c.name, c.name, zeroContainerState⟩ : Step) ∈ getInitSteps pod)
    ∧ (∀ (task : String) (inp : StepInput) (rest : List StepInput),
        inp.st = ⟨trimStepMarker c.name, c.name, zeroContainerState⟩ →
        readStepsLogs task false (inp :: rest) =
          stepRecords task inp ++
            (if stepAborts inp then [] else readStepsLogs task false rest)) := by
  refine ⟨rfl, rfl, ?_, ?_, ?_⟩
  · intro hc hmiss
    have hlook := lookupState_missing pod.containerStatuses c.name hmiss
    refine ⟨hlook, ?_⟩
    rw [← hlook]
    simp only [getSteps]
    exact List.mem_map_of_mem _ hc
  · intro hc hmiss
    have hlook := lookupState_missing pod.initContainerStatuses c.name hmiss
    refine ⟨hlook, ?_⟩
    rw [← hlook]
    simp only [getInitSteps]
    exact List.mem_map_of_mem _ hc
  · intro task inp rest hst
    have hstarted : inp.st.hasStarted = true := by
      rw [hst]; rfl
    rw [readStepsLogs_cons, if_neg (by simp [stepSkipped, hstarted])]

/-- Witness for C9 at a pod whose regular container and init container
each have no status entry. -/
theorem getSteps_missing_status_witness :
    (lookupState sampleNoStatusPod.containerStatuses lintContainer.name = zeroContainerState
     ∧ (⟨trimStepMarker lintContainer.name, lintContainer.name, zeroContainerState⟩ : Step) ∈
         getSteps sampleNoStatusPod)
    ∧ (lookupState sampleNoStatusPod.initContainerStatuses initFetchContainer.name =
         zeroContainerState
       ∧ (⟨trimStepMarker initFetchContainer.name, initFetchContainer.name,
            zeroContainerState⟩ : Step) ∈ getInitSteps sampleNoStatusPod)
    ∧ Step.hasStarted
        ⟨trimStepMarker lintContainer.name, lintContainer.name, zeroContainerState⟩ = true :=
  ⟨(getSteps_missing_status sampleNoStatusPod lintContainer).2.2.1 (by decide) (by decide),
   (getSteps_missing_status sampleNoStatusPod initFetchContainer).2.2.2.1
     (by decide) (by decide),
   (getSteps_missing_status sampleNoStatusPod lintContainer).2.1⟩

/-- Claim C1: when a processed step's terminal status reports failure
after its two sources are drained, the whole output is the preceding
steps' records, then that step's fanned-in records, then exactly one
error record carrying the status error — nothing at all from later
steps; the loop returns (closing both output channels). -/
theorem readStepsLogs_terminal_failure_aborts (task : String) (follow : Bool)
    (pre post : List StepInput) (inp : StepInput) (logs errs : List String) (e : String)
    (hpre : ∀ x ∈ pre, stepCompletes follow x = true)
    (hskip : stepSkipped follow inp = false)
    (hopen : inp.openRes = Except.ok (logs, errs))
    (hstatus : inp.status = some e) :
    readStepsLogs task follow (pre ++ inp :: post) =
      pre.flatMap (stepOut task follow) ++
        (fanIn task inp.st.name (some logs) (some errs) inp.sched ++ [Record.errR e]) := by
  rw [readStepsLogs_append task follow pre (inp :: post) hpre, readStepsLogs_cons,
    if_neg (by simp [hskip])]
  have haborts : stepAborts inp = true := by
    simp [stepAborts, hopen, hstatus, Except.isOk, Except.toBool]
  rw [if_pos haborts]
  simp [stepRecords, hopen, hstatus]

/-- Witness for C1: a skipped step, then the failing step, with a
later step that produces nothing. -/
theorem readStepsLogs_terminal_failure_aborts_witness :
    readStepsLogs sampleTask false ([sampleWaitingInput] ++ sampleAbortInput :: [sampleOkInput]) =
      ([sampleWaitingInput] : List StepInput).flatMap (stepOut sampleTask false) ++
        (fanIn sampleTask sampleAbortInput.st.name (some ["ok"]) (some [])
            sampleAbortInput.sched ++ [Record.errR sampleStatusErr]) :=
  readStepsLogs_terminal_failure_aborts sampleTask false [sampleWaitingInput] [sampleOkInput]
    sampleAbortInput ["ok"] [] sampleStatusErr (by decide) (by decide) rfl rfl

/-- Claim C2: a step whose log source opened and delivered at least one
line contributes a segment whose log records (tagged with that step's
name) are exactly its lines followed by one sentinel record, and that
whole segment precedes every record of any later step. -/
theorem readStepsLogs_sentinel (task : String) (follow : Bool)
    (pre post : List StepInput) (inp : StepInput) (logs errs : List String)
    (hpre : ∀ x ∈ pre, stepCompletes follow x = true)
    (hskip : stepSkipped follow inp = false)
    (hopen : inp.openRes = Except.ok (logs, errs))
    (hlogs : logs ≠ []) :
    readStepsLogs task follow (pre ++ inp :: post) =
      pre.flatMap (stepOut task follow) ++
        (fanIn task inp.st.name (some logs) (some errs) inp.sched ++
          (match inp.status with
           | some e => [Record.errR e]
           | none => readStepsLogs task follow post))
    ∧ logsOf inp.st.name (fanIn task inp.st.name (some logs) (some errs) inp.sched) =
        logs ++ [eofLog] := by
  constructor
  · rw [readStepsLogs_append task follow pre (inp :: post) hpre, readStepsLogs_cons,
      if_neg (by simp [hskip])]
    cases hstatus : inp.status with
    | none =>
      have haborts : stepAborts inp = false := by
        simp [stepAborts, hstatus]
      rw [if_neg (by simp [haborts])]
      simp [stepRecords, hopen, hstatus]
    | some e =>
      have haborts : stepAborts inp = true := by
        simp [stepAborts, hopen, hstatus, Except.isOk, Except.toBool]
      rw [if_pos haborts]
      simp [stepRecords, hopen, hstatus]
  · exact logsOf_fanIn task inp.st.name (some logs) (some errs) inp.sched

/-- Witness for C2: a successful one-line step followed by another
step. -/
theorem readStepsLogs_sentinel_witness :
    readStepsLogs sampleTask false ([] ++ sampleOkInput :: [sampleAbortInput]) =
      ([] : List StepInput).flatMap (stepOut sampleTask false) ++
        (fanIn sampleTask sampleOkInput.st.name (some ["ok"]) (some [])
            sampleOkInput.sched ++
          (match sampleOkInput.status with
           | some e => [Record.errR e]
           | none => readStepsLogs sampleTask false [sampleAbortInput]))
    ∧ logsOf sampleOkInput.st.name
        (fanIn sampleTask sampleOkInput.st.name (some ["ok"]) (some []) sampleOkInput.sched) =
      ["ok"] ++ [eofLog] :=
  readStepsLogs_sentinel sampleTask false [] [sampleAbortInput] sampleOkInput ["ok"] []
    (by intro x hx; cases hx) (by decide) rfl (by decide)

end LogReader
